import Mathlib

/-!
Shallow embedding of the beancount-tui editor core (src/app.rs, src/beancount.rs).

Modelling conventions:
- `tui_textarea::TextArea` is an external crate; it is modelled as a list of lines
  plus a cursor and the two pieces of presentation state the app mutates
  (border highlight and reversed cursor style).  The block/title decoration is
  pure presentation and is not modelled.  Its `input` method is modelled for
  plain character insertion at the cursor; other editing keys of the external
  crate are out of scope and modelled as no-ops.
- Rust panics (out-of-bounds indexing, `usize` subtraction underflow in debug
  builds) are modelled as the `Except.error` branch with the panic message.
- File reading and parsing (`parse_beancount_file`, the `beancount_parser`
  crate) are external I/O; `App.new` therefore takes the already-converted
  list of `TransactionTui` values.  The `directive` field of `TransactionTui`
  (the immutable parsed transaction) is unused by every modelled operation and
  is omitted.
-/

namespace BeancountTui

/-- Model of `tui_textarea::TextArea`: text lines, a (row, column) cursor, and
the two style bits the app toggles in `update_textareas`. -/
structure TextArea where
  lines : List String
  cursor : Nat × Nat
  highlighted : Bool
  cursorReversed : Bool
deriving DecidableEq

/-- The text content of a textarea as the app reads it: `lines().join(" ")`. -/
def TextArea.content (ta : TextArea) : String :=
  String.intercalate " " ta.lines

/-- Model of the `create_textarea!` macro: a single line holding `s`, cursor at
the origin, default style. -/
def mkTextArea (s : String) : TextArea :=
  ⟨[s], (0, 0), false, false⟩

/-- Model of `tui_textarea::Key` (the variants the app distinguishes plus a
representative set of others that all fall into the default arm). -/
inductive Key
  | Char (c : Char)
  | Esc
  | Enter
  | Backspace
  | Tab
  | Up
  | Down
  | Left
  | Right
deriving DecidableEq

/-- Model of `tui_textarea::Input`: a key with modifier flags. -/
structure Input where
  key : Key
  ctrl : Bool
  alt : Bool
  shift : Bool
deriving DecidableEq

/-- Model of `TextArea::input` (external crate, modelled only as far as the
app exercises it): a plain character without ctrl/alt is inserted at the
cursor; every other event leaves the buffer unchanged. -/
def TextArea.textInput (ta : TextArea) (i : Input) : TextArea :=
  match i.key with
  | Key.Char c =>
      if i.ctrl || i.alt then ta
      else
        match ta.lines.get? ta.cursor.1 with
        | some line =>
            { ta with
              lines := ta.lines.set ta.cursor.1
                (line.take ta.cursor.2 ++ String.singleton c ++ line.drop ta.cursor.2),
              cursor := (ta.cursor.1, ta.cursor.2 + 1) }
        | none => ta
  | _ => ta

/-- `PostingField` from src/beancount.rs. -/
inductive PostingField
  | Account
  | Amount
  | Currency
deriving DecidableEq

/-- `PostingTui` from src/beancount.rs: one posting backed by three textareas. -/
structure PostingTui where
  account_textarea : TextArea
  amount_textarea : TextArea
  currency_textarea : TextArea
deriving DecidableEq

/-- `PostingTui::next_field`: cyclic rotation over the three posting fields.
The `self` receiver is unused by the source body and is kept as a parameter. -/
def PostingTui.next_field (_self : PostingTui) (current_field : PostingField)
    (forward : Bool) : PostingField :=
  match current_field, forward with
  | PostingField.Account, true => PostingField.Amount
  | PostingField.Amount, true => PostingField.Currency
  | PostingField.Currency, true => PostingField.Account
  | PostingField.Account, false => PostingField.Currency
  | PostingField.Currency, false => PostingField.Amount
  | PostingField.Amount, false => PostingField.Account

/-- `PostingTui::get_field` / `get_field_mut` (read direction). -/
def PostingTui.get_field (p : PostingTui) (field : PostingField) : TextArea :=
  match field with
  | PostingField.Account => p.account_textarea
  | PostingField.Amount => p.amount_textarea
  | PostingField.Currency => p.currency_textarea

/-- Write-back through `get_field_mut`: replace the addressed textarea. -/
def PostingTui.set_field (p : PostingTui) (field : PostingField) (ta : TextArea) :
    PostingTui :=
  match field with
  | PostingField.Account => { p with account_textarea := ta }
  | PostingField.Amount => { p with amount_textarea := ta }
  | PostingField.Currency => { p with currency_textarea := ta }

/-- `TransactionTui` from src/beancount.rs.  The source stores the metadata
textareas as `[TextArea; 4]` (order Date, Flag, Payee, Narration); constructed
values always have four entries. -/
structure TransactionTui where
  metadata_textareas : List TextArea
  postings_textareas : List PostingTui
deriving DecidableEq

/-- `TransactionTui::format_transaction`: the Rust
`format!("{} {} {} {}\n{}", m0, m1, m2, m3, postings.join("\n"))` with each
metadata entry being `ta.lines().join(" ")` (with `unwrap_or("")`) and each
posting line `format!("    {}    {} {}", account, amount, currency)`. -/
def TransactionTui.format_transaction (t : TransactionTui) : String :=
  let metadata := t.metadata_textareas.map TextArea.content
  let postings := t.postings_textareas.map fun p =>
    "    " ++ p.account_textarea.content ++ "    " ++
      p.amount_textarea.content ++ " " ++ p.currency_textarea.content
  (metadata.getD 0 "") ++ " " ++ (metadata.getD 1 "") ++ " " ++
    (metadata.getD 2 "") ++ " " ++ (metadata.getD 3 "") ++ "\n" ++
    String.intercalate "\n" postings

/-- Serializer as the specification words it: join the four metadata contents
with a single space, join posting lines with newline, join the two blocks with
a newline.  Stated separately from `format_transaction` so the two can be
compared. -/
def specFormat (t : TransactionTui) : String :=
  String.intercalate " " (t.metadata_textareas.map TextArea.content) ++ "\n" ++
    String.intercalate "\n" (t.postings_textareas.map fun p =>
      "    " ++ p.account_textarea.content ++ "    " ++
        p.amount_textarea.content ++ " " ++ p.currency_textarea.content)

/-- A freshly created posting with all three fields empty. -/
def emptyPosting : PostingTui :=
  ⟨mkTextArea "", mkTextArea "", mkTextArea ""⟩

/-- Modelled from the spec: the definition of `TransactionTui::add_posting` is
not among the provided sources (only its caller `App::add_posting` in
src/app.rs is).  Per the spec (section 4.1) it "appends a new Posting with all
three fields empty"; the postings length increases by exactly 1. -/
def TransactionTui.add_posting (t : TransactionTui) : TransactionTui :=
  { t with postings_textareas := t.postings_textareas ++ [emptyPosting] }

/-- `Popup` from src/app.rs. -/
structure Popup where
  active : Bool
  prompt : String
deriving DecidableEq

/-- `Popup::show`. -/
def Popup.show (_p : Popup) (prompt : String) : Popup :=
  { active := true, prompt := prompt }

/-- `Popup::hide`. -/
def Popup.hide (p : Popup) : Popup :=
  { p with active := false }

/-- `InputFieldType` from src/app.rs. -/
inductive InputFieldType
  | Date
  | Flag
  | Payee
  | Narration
  | Account
  | Amount
  | Currency
deriving DecidableEq

/-- `METAFIELD_ORDER` from src/app.rs. -/
def METAFIELD_ORDER : List InputFieldType :=
  [InputFieldType.Date, InputFieldType.Flag, InputFieldType.Payee,
    InputFieldType.Narration]

/-- `POSTING_FIELD_ORDER` from src/app.rs. -/
def POSTING_FIELD_ORDER : List PostingField :=
  [PostingField.Account, PostingField.Amount, PostingField.Currency]

/-- `InputMode` from src/app.rs. -/
inductive InputMode
  | Normal
  | Insert
deriving DecidableEq

/-- `App` from src/app.rs. -/
structure App where
  exit : Bool
  transactions : List TransactionTui
  current_index : Nat
  currently_selected_metadata_field : Nat
  currently_selected_posting : Nat
  currently_selected_posting_field : PostingField
  current_mode : InputMode
  current_account : Nat
  focus_on_postings : Bool
  popup : Popup
deriving DecidableEq

/-- Styling applied by `update_textareas`: the selected textarea gets a yellow
border and a reversed cursor, every other one the default border and a reset
cursor.  Collapsed to the two modelled style bits. -/
def styleTA (selected : Bool) (ta : TextArea) : TextArea :=
  { ta with highlighted := selected, cursorReversed := selected }

/-- `App::update_textareas`: re-style every textarea of the current
transaction; panics (error) when `current_index` is out of bounds. -/
def App.update_textareas (app : App) : Except String App :=
  match app.transactions.get? app.current_index with
  | none => Except.error "index out of bounds"
  | some t =>
      let t' : TransactionTui :=
        { metadata_textareas :=
            t.metadata_textareas.enum.map fun q =>
              styleTA (q.1 == app.currently_selected_metadata_field &&
                !app.focus_on_postings) q.2,
          postings_textareas :=
            t.postings_textareas.enum.map fun q =>
              { account_textarea :=
                  styleTA (q.1 == app.currently_selected_posting &&
                    (PostingField.Account == app.currently_selected_posting_field) &&
                    app.focus_on_postings) q.2.account_textarea,
                amount_textarea :=
                  styleTA (q.1 == app.currently_selected_posting &&
                    (PostingField.Amount == app.currently_selected_posting_field) &&
                    app.focus_on_postings) q.2.amount_textarea,
                currency_textarea :=
                  styleTA (q.1 == app.currently_selected_posting &&
                    (PostingField.Currency == app.currently_selected_posting_field) &&
                    app.focus_on_postings) q.2.currency_textarea } }
      Except.ok { app with transactions := app.transactions.set app.current_index t' }

/-- Rust `usize::checked_sub`: `none` on underflow. -/
def checked_sub (a b : Nat) : Option Nat :=
  if a < b then none else some (a - b)

/-- The struct literal built inside `App::new` (before the initial
`update_textareas` call): index 0, metadata field 2 (payee), posting 0,
posting field Account, normal mode, inactive popup. -/
def App.initState (transactions : List TransactionTui) : App :=
  { exit := false
    transactions := transactions
    current_index := 0
    currently_selected_metadata_field := 2
    currently_selected_posting := 0
    currently_selected_posting_field := PostingField.Account
    current_mode := InputMode.Normal
    current_account := 0
    focus_on_postings := false
    popup := { active := false, prompt := "" } }

/-- `App::new`, taking the already-parsed and filtered transaction list (file
reading and parsing are external I/O): build the initial state, then run
`update_textareas` on it. -/
def App.new (transactions : List TransactionTui) : Except String App :=
  App.update_textareas (App.initState transactions)

/-- `App::confirm_close`. -/
def App.confirm_close (app : App) : App :=
  let msg := "Do you want to close the application and print the transaction to stdout?"
  { app with popup := app.popup.show msg }

/-- `App::exit` (renamed: `exit` is the field name in the embedding). -/
def App.exit_action (app : App) : App :=
  { app with exit := true }

/-- `App::handle_popup_key_event`: Esc hides the popup, Enter triggers the
exit action, everything else does nothing.  The source returns `Ok(())`
unconditionally, so the embedding is total. -/
def App.handle_popup_key_event (app : App) (input : Input) : App :=
  match input with
  | ⟨Key.Esc, _, _, _⟩ => { app with popup := app.popup.hide }
  | ⟨Key.Enter, _, _, _⟩ => app.exit_action
  | _ => app

/-- `App::next_transaction`.  The comparison `current_index <
transactions.len() - 1` underflows when the list is empty (a debug-build
panic), modelled as the error branch; otherwise the increment is taken only
strictly below the last index. -/
def App.next_transaction (app : App) : Except String App :=
  if app.transactions.length = 0 then
    Except.error "attempt to subtract with overflow"
  else if app.current_index < app.transactions.length - 1 then
    App.update_textareas { app with current_index := app.current_index + 1 }
  else
    App.update_textareas app

/-- `App::prev_transaction`: saturating decrement, then restyle. -/
def App.prev_transaction (app : App) : Except String App :=
  App.update_textareas { app with current_index := app.current_index - 1 }

/-- `App::navigate_metadata_field`: cyclic step over the four metadata
fields. -/
def App.navigate_metadata_field (app : App) (forward : Bool) : Except String App :=
  if forward then
    App.update_textareas { app with currently_selected_metadata_field :=
      (app.currently_selected_metadata_field + 1) % METAFIELD_ORDER.length }
  else
    App.update_textareas { app with currently_selected_metadata_field :=
      (app.currently_selected_metadata_field + METAFIELD_ORDER.length - 1) %
        METAFIELD_ORDER.length }

/-- `App::navigate_posting`: step the posting selection; stepping past either
end leaves the posting list and returns focus to the metadata row. -/
def App.navigate_posting (app : App) (forward : Bool) : Except String App :=
  match app.transactions.get? app.current_index with
  | none => Except.error "index out of bounds"
  | some current_transaction =>
      let n_postings := current_transaction.postings_textareas.length
      let app' :=
        if forward then
          if app.currently_selected_posting + 1 ≥ n_postings then
            { app with focus_on_postings := false }
          else
            { app with currently_selected_posting :=
                app.currently_selected_posting + 1 }
        else
          match checked_sub app.currently_selected_posting 1 with
          | none => { app with focus_on_postings := false }
          | some prev_posting =>
              { app with currently_selected_posting := prev_posting }
      App.update_textareas app'

/-- `App::navigate_posting_field`: rotate the posting field of the selected
posting; indexing the selected posting panics when it is out of bounds. -/
def App.navigate_posting_field (app : App) (forward : Bool) : Except String App :=
  match app.transactions.get? app.current_index with
  | none => Except.error "index out of bounds"
  | some current_transaction =>
      match current_transaction.postings_textareas.get?
          app.currently_selected_posting with
      | none => Except.error "index out of bounds"
      | some current_posting =>
          let fld := current_posting.next_field app.currently_selected_posting_field forward
          App.update_textareas { app with currently_selected_posting_field := fld }

/-- `App::add_posting`: append an empty posting to the current transaction,
then restyle. -/
def App.add_posting (app : App) : Except String App :=
  match app.transactions.get? app.current_index with
  | none => Except.error "index out of bounds"
  | some current_transaction =>
      let ts := app.transactions.set app.current_index current_transaction.add_posting
      App.update_textareas { app with transactions := ts }

/-- Write-back of the focused textarea after a plain text input (the mutable
borrow `current_field` in the source): replace the addressed textarea of the
current transaction. -/
def App.write_current_field (app : App) (current_transaction : TransactionTui)
    (ta : TextArea) : App :=
  let t' :=
    if app.focus_on_postings then
      { current_transaction with postings_textareas :=
          current_transaction.postings_textareas.enum.map fun q =>
            if q.1 = app.currently_selected_posting then
              (q.2.set_field app.currently_selected_posting_field ta)
            else q.2 }
    else
      { current_transaction with metadata_textareas :=
          current_transaction.metadata_textareas.enum.map fun q =>
            if q.1 = app.currently_selected_metadata_field then ta else q.2 }
  { app with transactions := app.transactions.set app.current_index t' }

/-- The key dispatch of `App::handle_key_event` (the `match key_event.into()`
block), with the current transaction and focused textarea already resolved. -/
def App.dispatch_key (app : App) (current_transaction : TransactionTui)
    (current_field : TextArea) (input : Input) : Except String App :=
  match input with
  | ⟨Key.Esc, _, _, _⟩ => Except.ok app.confirm_close
  | ⟨Key.Char 'q', true, _, _⟩ => Except.ok app.confirm_close
  | ⟨Key.Char 'n', true, _, _⟩ => app.next_transaction
  | ⟨Key.Char 'p', true, _, _⟩ => app.prev_transaction
  | ⟨Key.Char 'l', true, _, _⟩ =>
      if app.focus_on_postings then app.navigate_posting_field true
      else app.navigate_metadata_field true
  | ⟨Key.Char 'h', true, _, _⟩ =>
      if app.focus_on_postings then app.navigate_posting_field false
      else app.navigate_metadata_field false
  | ⟨Key.Char 'j', true, _, _⟩ =>
      if app.focus_on_postings then app.navigate_posting true
      else
        App.update_textareas { app with
          focus_on_postings := true, currently_selected_posting := 0 }
  | ⟨Key.Char 'k', true, _, _⟩ =>
      if app.focus_on_postings then app.navigate_posting false
      else if current_transaction.postings_textareas.length = 0 then
        Except.error "attempt to subtract with overflow"
      else
        App.update_textareas { app with
          focus_on_postings := true,
          currently_selected_posting :=
            current_transaction.postings_textareas.length - 1 }
  | ⟨Key.Char 'o', true, _, _⟩ => app.add_posting
  | text_input =>
      Except.ok (app.write_current_field current_transaction
        (current_field.textInput text_input))

/-- `App::handle_key_event`: eagerly resolve the current transaction and the
focused textarea (both lookups panic when out of bounds — this happens before
the key is even inspected), then dispatch on the key. -/
def App.handle_key_event (app : App) (input : Input) : Except String App :=
  match app.transactions.get? app.current_index with
  | none => Except.error "index out of bounds"
  | some current_transaction =>
      match (if app.focus_on_postings then
               Option.map
                 (fun p => PostingTui.get_field p app.currently_selected_posting_field)
                 (current_transaction.postings_textareas.get?
                   app.currently_selected_posting)
             else
               current_transaction.metadata_textareas.get?
                 app.currently_selected_metadata_field) with
      | none => Except.error "index out of bounds"
      | some current_field =>
          app.dispatch_key current_transaction current_field input

/-- The routing step of `App::handle_events` (after the external event read
and key-press filtering): while the popup is active every key event goes to
the popup handler, otherwise to the main handler. -/
def App.handle_event (app : App) (input : Input) : Except String App :=
  if app.popup.active then Except.ok (app.handle_popup_key_event input)
  else app.handle_key_event input

/-! ### Helper lemmas about `update_textareas` -/

/-- `update_textareas` only restyles textareas of the current transaction:
when it succeeds, every scalar field of the state and the number of
transactions are unchanged. -/
theorem update_textareas_fields (app a' : App)
    (h : app.update_textareas = Except.ok a') :
    a'.exit = app.exit ∧
    a'.current_index = app.current_index ∧
    a'.currently_selected_metadata_field = app.currently_selected_metadata_field ∧
    a'.currently_selected_posting = app.currently_selected_posting ∧
    a'.currently_selected_posting_field = app.currently_selected_posting_field ∧
    a'.focus_on_postings = app.focus_on_postings ∧
    a'.popup = app.popup ∧
    a'.transactions.length = app.transactions.length := by
  unfold App.update_textareas at h
  cases hg : app.transactions.get? app.current_index with
  | none => rw [hg] at h; cases h
  | some t =>
      rw [hg] at h
      injection h with h2
      subst h2
      refine ⟨rfl, rfl, rfl, rfl, rfl, rfl, rfl, ?_⟩
      simp [List.length_set]

/-- `update_textareas` succeeds whenever the current index is in bounds. -/
theorem update_textareas_isOk (app : App)
    (h : app.current_index < app.transactions.length) :
    ∃ a', app.update_textareas = Except.ok a' := by
  unfold App.update_textareas
  cases hg : app.transactions.get? app.current_index with
  | none => exact absurd (List.get?_eq_none.mp hg) (Nat.not_le.mpr h)
  | some t => exact ⟨_, rfl⟩

/-- Combination of the two previous lemmas. -/
theorem update_textareas_ok_fields (app : App)
    (h : app.current_index < app.transactions.length) :
    ∃ a', app.update_textareas = Except.ok a' ∧
      a'.exit = app.exit ∧
      a'.current_index = app.current_index ∧
      a'.currently_selected_metadata_field = app.currently_selected_metadata_field ∧
      a'.currently_selected_posting = app.currently_selected_posting ∧
      a'.currently_selected_posting_field = app.currently_selected_posting_field ∧
      a'.focus_on_postings = app.focus_on_postings ∧
      a'.popup = app.popup ∧
      a'.transactions.length = app.transactions.length := by
  obtain ⟨a', ha⟩ := update_textareas_isOk app h
  exact ⟨a', ha, update_textareas_fields app a' ha⟩

/-! ### Sample data -/

/-- The posting of testable property 6 of the spec. -/
def samplePosting : PostingTui :=
  ⟨mkTextArea "Assets:Cash", mkTextArea "10.00", mkTextArea "USD"⟩

/-- The transaction of testable property 6 of the spec. -/
def sampleTransaction : TransactionTui :=
  ⟨[mkTextArea "2024-01-01", mkTextArea "*", mkTextArea "Test", mkTextArea "Note"],
   [samplePosting]⟩

/-- A transaction with the same metadata and an empty posting list. -/
def sampleTransactionNoPostings : TransactionTui :=
  ⟨[mkTextArea "2024-01-01", mkTextArea "*", mkTextArea "Test", mkTextArea "Note"],
   []⟩

/-! ### Claims -/

/-- Claim C2 (confirmed): `format_transaction` is a pure function and returns
the four metadata contents joined with single spaces in order Date, Flag,
Payee, Narration, a newline, and the posting lines (four spaces, account, four
spaces, amount, one space, currency) joined with newlines — i.e. it agrees
with the spec formula `specFormat` — and on the spec's concrete example it
yields exactly the required string. -/
theorem c2_format_transaction (ta0 ta1 ta2 ta3 : TextArea) (ps : List PostingTui) :
    TransactionTui.format_transaction ⟨[ta0, ta1, ta2, ta3], ps⟩ =
      specFormat ⟨[ta0, ta1, ta2, ta3], ps⟩ ∧
    TransactionTui.format_transaction sampleTransaction =
      "2024-01-01 * Test Note\n    Assets:Cash    10.00 USD" := by
  constructor
  · unfold TransactionTui.format_transaction specFormat
    simp [String.intercalate, String.intercalate.go, String.append_assoc]
  · rfl

/-- Claim C5 (code_bug): on a successfully parsed ledger with zero transaction
directives, `App::new` does not return a descriptive "no transactions to
edit" error; it panics with an index-out-of-bounds inside `update_textareas`
while addressing `transactions[0]` (modelled as the error branch).  The
interactive loop is never entered, but the failure is an uncontrolled panic,
not the explicit treatment the spec requires. -/
theorem c5_empty_ledger_panics :
    App.new [] = Except.error "index out of bounds" := by
  rfl

/-- Claim C9 (confirmed): the posting-field rotation `next_field` is a 3-cycle
in both directions, follows the fixed forward order
Account to Amount to Currency to Account, the backward rotation is its
inverse, and the result does not depend on the posting it is called on. -/
theorem c9_posting_field_cycle (p q : PostingTui) (f : PostingField) (forward : Bool) :
    p.next_field (p.next_field (p.next_field f true) true) true = f ∧
    p.next_field (p.next_field (p.next_field f false) false) false = f ∧
    p.next_field PostingField.Account true = PostingField.Amount ∧
    p.next_field PostingField.Amount true = PostingField.Currency ∧
    p.next_field PostingField.Currency true = PostingField.Account ∧
    p.next_field (p.next_field f true) false = f ∧
    p.next_field (p.next_field f false) true = f ∧
    p.next_field f forward = q.next_field f forward := by
  cases f <;> cases forward <;>
    exact ⟨rfl, rfl, rfl, rfl, rfl, rfl, rfl, rfl⟩

/-- A successful `update_textareas` keeps `current_index`. -/
theorem update_textareas_map_current_index (app : App)
    (h : app.current_index < app.transactions.length) :
    (app.update_textareas).toOption.map App.current_index = some app.current_index := by
  obtain ⟨a', ha, _, hci, _⟩ := update_textareas_ok_fields app h
  rw [ha]
  simp [Except.toOption, hci]

/-- Claim C8 (confirmed): for a non-empty transaction list with the current
index in bounds, `next_transaction` at the last index and `prev_transaction`
at index 0 are no-ops (no error, no wraparound), and any other call moves the
index by exactly 1 in the corresponding direction. -/
theorem c8_transaction_navigation_saturates (app : App)
    (hidx : app.current_index < app.transactions.length) :
    (app.current_index = app.transactions.length - 1 →
      (app.next_transaction).toOption.map App.current_index = some app.current_index) ∧
    (app.current_index < app.transactions.length - 1 →
      (app.next_transaction).toOption.map App.current_index = some (app.current_index + 1)) ∧
    (app.current_index = 0 →
      (app.prev_transaction).toOption.map App.current_index = some 0) ∧
    (0 < app.current_index →
      (app.prev_transaction).toOption.map App.current_index = some (app.current_index - 1)) := by
  have hlen : ¬ app.transactions.length = 0 := by omega
  refine ⟨?_, ?_, ?_, ?_⟩
  · intro h
    unfold App.next_transaction
    rw [if_neg hlen, if_neg (by omega)]
    exact update_textareas_map_current_index app hidx
  · intro h
    unfold App.next_transaction
    rw [if_neg hlen, if_pos h]
    have h2 : ({ app with current_index := app.current_index + 1 } : App).current_index <
        ({ app with current_index := app.current_index + 1 } : App).transactions.length := by
      simp only []
      omega
    exact update_textareas_map_current_index
      { app with current_index := app.current_index + 1 } h2
  · intro h
    unfold App.prev_transaction
    have h2 : ({ app with current_index := app.current_index - 1 } : App).current_index <
        ({ app with current_index := app.current_index - 1 } : App).transactions.length := by
      simp only []
      omega
    have := update_textareas_map_current_index
      { app with current_index := app.current_index - 1 } h2
    rw [this]
    simp [h]
  · intro h
    unfold App.prev_transaction
    have h2 : ({ app with current_index := app.current_index - 1 } : App).current_index <
        ({ app with current_index := app.current_index - 1 } : App).transactions.length := by
      simp only []
      omega
    exact update_textareas_map_current_index
      { app with current_index := app.current_index - 1 } h2

/-- A two-transaction state whose selected metadata field is 0 (Date) — a
state reachable by cycling the metadata selection — used to observe what a
transaction switch does to the focus location. -/
def c1App : App :=
  { App.initState [sampleTransaction, sampleTransaction] with
      currently_selected_metadata_field := 0 }

/-- Claim C1 counterexample: from `c1App` (metadata field 0 selected),
`next_transaction` successfully moves to transaction 1 yet the selected
metadata field index stays 0 — not the claimed reset to 2 (Payee). -/
theorem c1_counterexample :
    (c1App.next_transaction).toOption.map
        (fun a => (a.current_index, a.focus_on_postings,
          a.currently_selected_metadata_field))
      = some (1, false, 0) ∧
    (c1App.next_transaction).toOption.map App.currently_selected_metadata_field
      ≠ some 2 := by
  exact ⟨rfl, by decide⟩

/-- Claim C1 (corrected): switching the current transaction does NOT reset the
focus location.  `next_transaction` / `prev_transaction` change only
`current_index` (saturating) and restyle; `focus_on_postings`, the selected
metadata field, the selected posting and the posting field kind are all
preserved unchanged from before the switch (the `Metadata(Payee)` default is
established once at `App::new`, never on a switch). -/
theorem c1_switch_preserves_focus (app a₁ a₂ : App)
    (h₁ : app.next_transaction = Except.ok a₁)
    (h₂ : app.prev_transaction = Except.ok a₂) :
    (a₁.focus_on_postings = app.focus_on_postings ∧
     a₁.currently_selected_metadata_field = app.currently_selected_metadata_field ∧
     a₁.currently_selected_posting = app.currently_selected_posting ∧
     a₁.currently_selected_posting_field = app.currently_selected_posting_field) ∧
    (a₂.focus_on_postings = app.focus_on_postings ∧
     a₂.currently_selected_metadata_field = app.currently_selected_metadata_field ∧
     a₂.currently_selected_posting = app.currently_selected_posting ∧
     a₂.currently_selected_posting_field = app.currently_selected_posting_field) := by
  constructor
  · unfold App.next_transaction at h₁
    split at h₁
    · cases h₁
    · split at h₁
      · obtain ⟨_, _, hm, hp, hpf, hf, _, _⟩ := update_textareas_fields _ _ h₁
        exact ⟨hf, hm, hp, hpf⟩
      · obtain ⟨_, _, hm, hp, hpf, hf, _, _⟩ := update_textareas_fields _ _ h₁
        exact ⟨hf, hm, hp, hpf⟩
  · unfold App.prev_transaction at h₂
    obtain ⟨_, _, hm, hp, hpf, hf, _, _⟩ := update_textareas_fields _ _ h₂
    exact ⟨hf, hm, hp, hpf⟩

/-- The state after `next_transaction` from `c1App`. -/
def c1Next : App := (c1App.next_transaction).toOption.getD c1App

/-- The state after `prev_transaction` from `c1App`. -/
def c1Prev : App := (c1App.prev_transaction).toOption.getD c1App

/-- Witness for C1's amended theorem at the concrete state `c1App`. -/
theorem c1_switch_preserves_focus_witness :
    (c1Next.focus_on_postings = c1App.focus_on_postings ∧
     c1Next.currently_selected_metadata_field = c1App.currently_selected_metadata_field ∧
     c1Next.currently_selected_posting = c1App.currently_selected_posting ∧
     c1Next.currently_selected_posting_field = c1App.currently_selected_posting_field) ∧
    (c1Prev.focus_on_postings = c1App.focus_on_postings ∧
     c1Prev.currently_selected_metadata_field = c1App.currently_selected_metadata_field ∧
     c1Prev.currently_selected_posting = c1App.currently_selected_posting ∧
     c1Prev.currently_selected_posting_field = c1App.currently_selected_posting_field) :=
  c1_switch_preserves_focus c1App c1Next c1Prev rfl rfl

/-- Two-transaction state at the last index. -/
def c8AppEnd : App :=
  { App.initState [sampleTransaction, sampleTransaction] with current_index := 1 }

/-- Two-transaction state at index 0. -/
def c8AppStart : App := App.initState [sampleTransaction, sampleTransaction]

/-- Witness for C8 at the two ends of a concrete two-transaction list. -/
theorem c8_transaction_navigation_saturates_witness :
    (c8AppEnd.next_transaction).toOption.map App.current_index
      = some c8AppEnd.current_index ∧
    (c8AppStart.next_transaction).toOption.map App.current_index
      = some (c8AppStart.current_index + 1) ∧
    (c8AppStart.prev_transaction).toOption.map App.current_index = some 0 ∧
    (c8AppEnd.prev_transaction).toOption.map App.current_index
      = some (c8AppEnd.current_index - 1) :=
  ⟨(c8_transaction_navigation_saturates c8AppEnd (by decide)).1 (by decide),
   (c8_transaction_navigation_saturates c8AppStart (by decide)).2.1 (by decide),
   (c8_transaction_navigation_saturates c8AppStart (by decide)).2.2.1 (by decide),
   (c8_transaction_navigation_saturates c8AppEnd (by decide)).2.2.2 (by decide)⟩

/-- A successful `update_textareas` keeps the focus triple (postings focus
flag, metadata field selection, posting selection). -/
theorem update_textareas_map_focus (app : App)
    (h : app.current_index < app.transactions.length) :
    (app.update_textareas).toOption.map
        (fun a => (a.focus_on_postings, a.currently_selected_metadata_field,
          a.currently_selected_posting))
      = some (app.focus_on_postings, app.currently_selected_metadata_field,
          app.currently_selected_posting) := by
  obtain ⟨a', ha, _, _, hm, hp, _, hf, _, _⟩ := update_textareas_ok_fields app h
  rw [ha]
  simp [Except.toOption, hm, hp, hf]

/-- Claim C4 (confirmed): while focused on a posting, a forward move at the
last posting index or a backward move at posting index 0 does not clamp: it
exits back to metadata focus (`focus_on_postings` becomes false) with the
previously selected metadata field index preserved unchanged; an in-bounds
move instead changes the posting index by exactly 1 and keeps postings
focus. -/
theorem c4_navigate_posting (app : App) (t : TransactionTui)
    (hget : app.transactions.get? app.current_index = some t)
    (hfocus : app.focus_on_postings = true) :
    (app.currently_selected_posting + 1 ≥ t.postings_textareas.length →
      (app.navigate_posting true).toOption.map
          (fun a => (a.focus_on_postings, a.currently_selected_metadata_field,
            a.currently_selected_posting))
        = some (false, app.currently_selected_metadata_field,
            app.currently_selected_posting)) ∧
    (app.currently_selected_posting + 1 < t.postings_textareas.length →
      (app.navigate_posting true).toOption.map
          (fun a => (a.focus_on_postings, a.currently_selected_metadata_field,
            a.currently_selected_posting))
        = some (true, app.currently_selected_metadata_field,
            app.currently_selected_posting + 1)) ∧
    (app.currently_selected_posting = 0 →
      (app.navigate_posting false).toOption.map
          (fun a => (a.focus_on_postings, a.currently_selected_metadata_field,
            a.currently_selected_posting))
        = some (false, app.currently_selected_metadata_field,
            app.currently_selected_posting)) ∧
    (0 < app.currently_selected_posting →
      (app.navigate_posting false).toOption.map
          (fun a => (a.focus_on_postings, a.currently_selected_metadata_field,
            a.currently_selected_posting))
        = some (true, app.currently_selected_metadata_field,
            app.currently_selected_posting - 1)) := by
  obtain ⟨hidx, -⟩ := List.get?_eq_some.mp hget
  have hfwd : app.navigate_posting true =
      App.update_textareas
        (if app.currently_selected_posting + 1 ≥ t.postings_textareas.length then
          { app with focus_on_postings := false }
        else
          { app with currently_selected_posting :=
              app.currently_selected_posting + 1 }) := by
    unfold App.navigate_posting
    rw [hget]
    rfl
  have hbwd : app.navigate_posting false =
      App.update_textareas
        (match checked_sub app.currently_selected_posting 1 with
         | none => { app with focus_on_postings := false }
         | some prev_posting =>
             { app with currently_selected_posting := prev_posting }) := by
    unfold App.navigate_posting
    rw [hget]
    rfl
  refine ⟨?_, ?_, ?_, ?_⟩
  · intro h
    rw [hfwd, if_pos h]
    exact update_textareas_map_focus { app with focus_on_postings := false } hidx
  · intro h
    rw [hfwd, if_neg (by omega)]
    simpa only [hfocus] using update_textareas_map_focus
      { app with currently_selected_posting := app.currently_selected_posting + 1 }
      hidx
  · intro h
    have hcs : checked_sub app.currently_selected_posting 1 = none := by
      simp [checked_sub, h]
    rw [hbwd, hcs]
    exact update_textareas_map_focus { app with focus_on_postings := false } hidx
  · intro h
    have hcs : checked_sub app.currently_selected_posting 1 =
        some (app.currently_selected_posting - 1) := by
      simp only [checked_sub, if_neg (by omega : ¬ app.currently_selected_posting < 1)]
    rw [hbwd, hcs]
    simpa only [hfocus] using update_textareas_map_focus
      { app with currently_selected_posting := app.currently_selected_posting - 1 }
      hidx

/-- A state focused on the single posting of `sampleTransaction`. -/
def c4App : App :=
  { App.initState [sampleTransaction] with
      focus_on_postings := true, currently_selected_posting := 0 }

/-- Witness for C4 at a concrete one-posting state: a forward move from the
last (only) posting and a backward move from posting 0 both exit to metadata
focus with the metadata field preserved. -/
theorem c4_navigate_posting_witness :
    (c4App.navigate_posting true).toOption.map
        (fun a => (a.focus_on_postings, a.currently_selected_metadata_field,
          a.currently_selected_posting))
      = some (false, c4App.currently_selected_metadata_field,
          c4App.currently_selected_posting) ∧
    (c4App.navigate_posting false).toOption.map
        (fun a => (a.focus_on_postings, a.currently_selected_metadata_field,
          a.currently_selected_posting))
      = some (false, c4App.currently_selected_metadata_field,
          c4App.currently_selected_posting) :=
  ⟨(c4_navigate_posting c4App sampleTransaction rfl rfl).1 (by decide),
   (c4_navigate_posting c4App sampleTransaction rfl rfl).2.2.1 (by decide)⟩

/-- Claim C7 (confirmed): `Popup::show` activates the popup and stores the
message; while the popup is active every key event is routed to the popup
handler exclusively; there Esc only deactivates the popup (every other part
of the state — focus location, transaction list and hence every textarea's
content — is exactly as before), Enter triggers the exit action regardless of
the prior focus location, and any other key changes nothing. -/
theorem c7_modal_prompt (app : App) (msg : String) (input : Input) :
    (app.popup.show msg).active = true ∧
    (app.popup.show msg).prompt = msg ∧
    (app.popup.active = true →
      app.handle_event input = Except.ok (app.handle_popup_key_event input)) ∧
    (input.key = Key.Esc →
      app.handle_popup_key_event input = { app with popup := app.popup.hide }) ∧
    (input.key = Key.Enter →
      app.handle_popup_key_event input = { app with exit := true }) ∧
    (input.key ≠ Key.Esc → input.key ≠ Key.Enter →
      app.handle_popup_key_event input = app) := by
  obtain ⟨k, c, a, s⟩ := input
  refine ⟨rfl, rfl, ?_, ?_, ?_, ?_⟩
  · intro h
    unfold App.handle_event
    rw [h]
    simp
  · intro h
    simp only at h
    subst h
    rfl
  · intro h
    simp only at h
    subst h
    rfl
  · intro h1 h2
    cases k with
    | Esc => exact absurd rfl h1
    | Enter => exact absurd rfl h2
    | _ => rfl

/-- A one-transaction state with an active popup. -/
def popupApp : App :=
  { App.initState [sampleTransaction] with
      popup := { active := true, prompt := "Confirm?" } }

/-- The Esc key event. -/
def escInput : Input := ⟨Key.Esc, false, false, false⟩

/-- The Enter key event. -/
def enterInput : Input := ⟨Key.Enter, false, false, false⟩

/-- A plain character key event. -/
def charXInput : Input := ⟨Key.Char 'x', false, false, false⟩

/-- Witness for C7 at a concrete active-popup state and the three kinds of
key events. -/
theorem c7_modal_prompt_witness :
    (popupApp.popup.show "Confirm?").active = true ∧
    popupApp.handle_event escInput
      = Except.ok (popupApp.handle_popup_key_event escInput) ∧
    popupApp.handle_popup_key_event escInput
      = { popupApp with popup := popupApp.popup.hide } ∧
    popupApp.handle_popup_key_event enterInput = { popupApp with exit := true } ∧
    popupApp.handle_popup_key_event charXInput = popupApp :=
  ⟨(c7_modal_prompt popupApp "Confirm?" escInput).1,
   (c7_modal_prompt popupApp "Confirm?" escInput).2.2.1 rfl,
   (c7_modal_prompt popupApp "Confirm?" escInput).2.2.2.1 rfl,
   (c7_modal_prompt popupApp "Confirm?" enterInput).2.2.2.2.1 rfl,
   (c7_modal_prompt popupApp "Confirm?" charXInput).2.2.2.2.2 (by decide) (by decide)⟩

/-- `handle_key_event` reduces to the key dispatch once the two eager lookups
(current transaction, focused textarea) succeed. -/
theorem handle_key_event_eq_dispatch (app : App) (t : TransactionTui)
    (fld : TextArea) (input : Input)
    (h1 : app.transactions.get? app.current_index = some t)
    (h2 : (if app.focus_on_postings then
             Option.map
               (fun p => PostingTui.get_field p app.currently_selected_posting_field)
               (t.postings_textareas.get? app.currently_selected_posting)
           else
             t.metadata_textareas.get? app.currently_selected_metadata_field)
          = some fld) :
    app.handle_key_event input = app.dispatch_key t fld input := by
  unfold App.handle_key_event
  simp only [h1]
  rw [h2]

/-- Ctrl-j. -/
def ctrlJ : Input := ⟨Key.Char 'j', true, false, false⟩

/-- Ctrl-k. -/
def ctrlK : Input := ⟨Key.Char 'k', true, false, false⟩

/-- Ctrl-o. -/
def ctrlO : Input := ⟨Key.Char 'o', true, false, false⟩

/-- A one-transaction metadata-focused state whose posting field kind is
Amount (reachable: enter the postings, rotate the field with Ctrl-l, exit
back to metadata). -/
def c3App : App :=
  { App.initState [sampleTransaction] with
      currently_selected_posting_field := PostingField.Amount }

/-- Claim C3 counterexample: entering the posting list from `c3App`
(metadata focus, posting field kind Amount) succeeds and selects posting 0,
but the posting field kind stays Amount — it is not reset to the claimed
Account default. -/
theorem c3_counterexample :
    (c3App.handle_key_event ctrlJ).toOption.map
        (fun a => (a.focus_on_postings, a.currently_selected_posting,
          a.currently_selected_posting_field))
      = some (true, 0, PostingField.Amount) ∧
    (c3App.handle_key_event ctrlJ).toOption.map
        App.currently_selected_posting_field
      ≠ some PostingField.Account :=
  ⟨rfl, by decide⟩

/-- Claim C3 (corrected): from metadata focus, Ctrl-j enters the posting list
selecting posting 0 and Ctrl-k (for a non-empty posting list) enters it
selecting the last posting; in both cases the posting field kind is left
unchanged — it is Account only because `App::new` initialises it so, not
because entering resets it. -/
theorem c3_enter_postings (app : App) (t : TransactionTui)
    (hget : app.transactions.get? app.current_index = some t)
    (hmeta : app.currently_selected_metadata_field < t.metadata_textareas.length)
    (hfocus : app.focus_on_postings = false) :
    ((app.handle_key_event ctrlJ).toOption.map
        (fun a => (a.focus_on_postings, a.currently_selected_posting,
          a.currently_selected_posting_field))
      = some (true, 0, app.currently_selected_posting_field)) ∧
    (0 < t.postings_textareas.length →
      (app.handle_key_event ctrlK).toOption.map
          (fun a => (a.focus_on_postings, a.currently_selected_posting,
            a.currently_selected_posting_field))
        = some (true, t.postings_textareas.length - 1,
            app.currently_selected_posting_field)) := by
  obtain ⟨hidx, -⟩ := List.get?_eq_some.mp hget
  have h2 : (if app.focus_on_postings then
        Option.map
          (fun p => PostingTui.get_field p app.currently_selected_posting_field)
          (t.postings_textareas.get? app.currently_selected_posting)
      else
        t.metadata_textareas.get? app.currently_selected_metadata_field)
      = some (t.metadata_textareas.get
          ⟨app.currently_selected_metadata_field, hmeta⟩) := by
    rw [hfocus]
    simp [List.get?_eq_get hmeta]
  constructor
  · rw [handle_key_event_eq_dispatch app t _ ctrlJ hget h2]
    have hd : app.dispatch_key t
        (t.metadata_textareas.get ⟨app.currently_selected_metadata_field, hmeta⟩)
        ctrlJ =
        (if app.focus_on_postings then app.navigate_posting true
         else App.update_textareas { app with
           focus_on_postings := true, currently_selected_posting := 0 }) := rfl
    rw [hd, hfocus, if_neg (by simp)]
    obtain ⟨a', ha, _, _, _, hp, hpf, hf, _, _⟩ :=
      update_textareas_ok_fields
        { app with focus_on_postings := true, currently_selected_posting := 0 } hidx
    rw [ha]
    simp [Except.toOption, hf, hp, hpf]
  · intro hpos
    rw [handle_key_event_eq_dispatch app t _ ctrlK hget h2]
    have hd : app.dispatch_key t
        (t.metadata_textareas.get ⟨app.currently_selected_metadata_field, hmeta⟩)
        ctrlK =
        (if app.focus_on_postings then app.navigate_posting false
         else if t.postings_textareas.length = 0 then
           Except.error "attempt to subtract with overflow"
         else
           App.update_textareas { app with
             focus_on_postings := true,
             currently_selected_posting := t.postings_textareas.length - 1 }) := rfl
    rw [hd, hfocus, if_neg (by simp), if_neg (by omega)]
    obtain ⟨a', ha, _, _, _, hp, hpf, hf, _, _⟩ :=
      update_textareas_ok_fields
        { app with
          focus_on_postings := true,
          currently_selected_posting := t.postings_textareas.length - 1 } hidx
    rw [ha]
    simp [Except.toOption, hf, hp, hpf]

/-- A fresh one-transaction state (metadata focus, field 2, field kind
Account). -/
def c3WitnessApp : App := App.initState [sampleTransaction]

/-- Witness for C3's amended theorem at a concrete fresh state. -/
theorem c3_enter_postings_witness :
    ((c3WitnessApp.handle_key_event ctrlJ).toOption.map
        (fun a => (a.focus_on_postings, a.currently_selected_posting,
          a.currently_selected_posting_field))
      = some (true, 0, c3WitnessApp.currently_selected_posting_field)) ∧
    ((c3WitnessApp.handle_key_event ctrlK).toOption.map
        (fun a => (a.focus_on_postings, a.currently_selected_posting,
          a.currently_selected_posting_field))
      = some (true, sampleTransaction.postings_textareas.length - 1,
          c3WitnessApp.currently_selected_posting_field)) :=
  ⟨(c3_enter_postings c3WitnessApp sampleTransaction rfl (by decide) rfl).1,
   (c3_enter_postings c3WitnessApp sampleTransaction rfl (by decide) rfl).2
     (by decide)⟩

/-- Under metadata focus, the eager focused-textarea lookup of
`handle_key_event` resolves to the selected metadata textarea. -/
theorem metadata_field_lookup (app : App) (t : TransactionTui)
    (hmeta : app.currently_selected_metadata_field < t.metadata_textareas.length)
    (hfocus : app.focus_on_postings = false) :
    (if app.focus_on_postings then
       Option.map
         (fun p => PostingTui.get_field p app.currently_selected_posting_field)
         (t.postings_textareas.get? app.currently_selected_posting)
     else
       t.metadata_textareas.get? app.currently_selected_metadata_field)
    = some (t.metadata_textareas.get
        ⟨app.currently_selected_metadata_field, hmeta⟩) := by
  rw [hfocus]
  simp [List.get?_eq_get hmeta]

/-- Claim C10 (confirmed): entering the posting list from the bottom (Ctrl-k
under metadata focus) is total only when the current transaction has at least
one posting: then the selected posting index becomes the postings length
minus 1 without underflow; on an empty posting list the usize subtraction
`postings_textareas.len() - 1` underflows, a panic modelled as the
embedding's error branch. -/
theorem c10_enter_from_bottom (app : App) (t : TransactionTui)
    (hget : app.transactions.get? app.current_index = some t)
    (hmeta : app.currently_selected_metadata_field < t.metadata_textareas.length)
    (hfocus : app.focus_on_postings = false) :
    (0 < t.postings_textareas.length →
      (app.handle_key_event ctrlK).toOption.map App.currently_selected_posting
        = some (t.postings_textareas.length - 1)) ∧
    (t.postings_textareas.length = 0 →
      app.handle_key_event ctrlK
        = Except.error "attempt to subtract with overflow") := by
  obtain ⟨hidx, -⟩ := List.get?_eq_some.mp hget
  have h2 := metadata_field_lookup app t hmeta hfocus
  have hd : app.dispatch_key t
      (t.metadata_textareas.get ⟨app.currently_selected_metadata_field, hmeta⟩)
      ctrlK =
      (if app.focus_on_postings then app.navigate_posting false
       else if t.postings_textareas.length = 0 then
         Except.error "attempt to subtract with overflow"
       else
         App.update_textareas { app with
           focus_on_postings := true,
           currently_selected_posting := t.postings_textareas.length - 1 }) := rfl
  constructor
  · intro hpos
    rw [handle_key_event_eq_dispatch app t _ ctrlK hget h2, hd, hfocus,
      if_neg (by simp), if_neg (by omega)]
    obtain ⟨a', ha, _, _, _, hp, _, _, _, _⟩ :=
      update_textareas_ok_fields
        { app with
          focus_on_postings := true,
          currently_selected_posting := t.postings_textareas.length - 1 } hidx
    rw [ha]
    simp [Except.toOption, hp]
  · intro h0
    rw [handle_key_event_eq_dispatch app t _ ctrlK hget h2, hd, hfocus,
      if_neg (by simp), if_pos h0]

/-- A state on a transaction with no postings (metadata focus). -/
def c10AppEmpty : App := App.initState [sampleTransactionNoPostings]

/-- Witness for C10: with one posting Ctrl-k selects index 0 (= len - 1);
with zero postings it hits the underflow panic branch. -/
theorem c10_enter_from_bottom_witness :
    (c3WitnessApp.handle_key_event ctrlK).toOption.map App.currently_selected_posting
      = some (sampleTransaction.postings_textareas.length - 1) ∧
    c10AppEmpty.handle_key_event ctrlK
      = Except.error "attempt to subtract with overflow" :=
  ⟨(c10_enter_from_bottom c3WitnessApp sampleTransaction rfl (by decide) rfl).1
     (by decide),
   (c10_enter_from_bottom c10AppEmpty sampleTransactionNoPostings rfl (by decide)
     rfl).2 rfl⟩

/-- Claim C6 (confirmed, spec-modelled): `add_posting` on a record with N
postings appends exactly one posting with empty account/amount/currency at
index N (length becomes N + 1), leaves all existing postings and the metadata
fields unchanged, and the app-level `App::add_posting` does not move the
focus (the new posting is not selected automatically). -/
theorem c6_add_posting (t : TransactionTui) (app a' : App) (tr : TransactionTui)
    (hget : app.transactions.get? app.current_index = some tr)
    (h : app.add_posting = Except.ok a') :
    t.add_posting.postings_textareas = t.postings_textareas ++ [emptyPosting] ∧
    t.add_posting.postings_textareas.length = t.postings_textareas.length + 1 ∧
    t.add_posting.postings_textareas.get? t.postings_textareas.length
      = some emptyPosting ∧
    emptyPosting.account_textarea.content = "" ∧
    emptyPosting.amount_textarea.content = "" ∧
    emptyPosting.currency_textarea.content = "" ∧
    t.add_posting.metadata_textareas = t.metadata_textareas ∧
    (∀ i, i < t.postings_textareas.length →
      t.add_posting.postings_textareas.get? i = t.postings_textareas.get? i) ∧
    a'.focus_on_postings = app.focus_on_postings ∧
    a'.currently_selected_posting = app.currently_selected_posting ∧
    a'.currently_selected_posting_field = app.currently_selected_posting_field ∧
    a'.currently_selected_metadata_field = app.currently_selected_metadata_field := by
  obtain ⟨hidx, -⟩ := List.get?_eq_some.mp hget
  unfold App.add_posting at h
  simp only [hget] at h
  obtain ⟨_, _, hm, hp, hpf, hf, _, _⟩ := update_textareas_fields _ _ h
  refine ⟨rfl, by simp [TransactionTui.add_posting], ?_, rfl, rfl, rfl, rfl, ?_,
    hf, hp, hpf, hm⟩
  · simp [TransactionTui.add_posting, List.getElem?_concat_length]
  · intro i hi
    simp only [TransactionTui.add_posting]
    rw [List.get?_eq_getElem?, List.get?_eq_getElem?, List.getElem?_append,
      if_pos hi]

/-- A fresh one-transaction state for exercising `App::add_posting`. -/
def c6App : App := App.initState [sampleTransaction]

/-- The state after `App::add_posting` from `c6App`. -/
def c6Next : App := (c6App.add_posting).toOption.getD c6App

/-- Witness for C6: appending to the one-posting sample transaction, and the
concrete app-level call preserving the focus location. -/
theorem c6_add_posting_witness :
    sampleTransaction.add_posting.postings_textareas
      = sampleTransaction.postings_textareas ++ [emptyPosting] ∧
    c6Next.focus_on_postings = c6App.focus_on_postings ∧
    c6Next.currently_selected_posting = c6App.currently_selected_posting :=
  ⟨(c6_add_posting sampleTransaction c6App c6Next sampleTransaction rfl rfl).1,
   (c6_add_posting sampleTransaction c6App c6Next sampleTransaction rfl
       rfl).2.2.2.2.2.2.2.2.1,
   (c6_add_posting sampleTransaction c6App c6Next sampleTransaction rfl
       rfl).2.2.2.2.2.2.2.2.2.1⟩

end BeancountTui
